import Mathlib

/-!
Shallow embedding of the movie-explorer backend (`src/backend/main.py`):
the query-construction and pagination layer of the `/movies` endpoint,
the relation builder (`get_db`), the row projector, and the poster
lookup with its cache.  Numeric SQL DOUBLE columns are modelled as `Rat`,
BIGINT/INTEGER columns as `Int`, nullable columns as `Option`.
SQL three-valued logic is modelled by letting a predicate return `false`
whenever its SQL value would be NULL (a WHERE clause keeps a row only
when the predicate is TRUE).
-/

/-- One row of the unified `movies` table, in the column order produced by
`CREATE TABLE movies` (base columns first, then the enrichment columns
`movie_key`, `score`, `reliability`).  Every column is nullable: `title`
comes from `label::VARCHAR` which a CSV row may leave empty. -/
structure MovieRow where
  title : Option String
  year : Option Int
  region : Option String
  imdb_id : Option String
  imdb_url : Option String
  douban_id : Option Int
  douban_url : Option String
  imdb_rating : Option Rat
  imdb_votes : Option Int
  douban_rating : Option Rat
  douban_votes : Option Int
  gap : Option Rat
  movie_key : Option String
  score : Option Rat
  reliability : Option Rat
deriving DecidableEq, Repr

/-- The query parameters of `GET /movies` (the `QueryRequest`). -/
structure Req where
  q : Option String
  region : Option String
  year_min : Option Int
  year_max : Option Int
  min_reliability : Rat
  sort : String
  page : Nat
  page_size : Nat
deriving DecidableEq, Repr

/-- The sort keys accepted by the endpoint (`SortOptions` literal type). -/
def sortOptions : List String :=
  ["score_desc", "score_asc", "reliability_desc", "gap_desc", "gap_asc",
   "year_desc", "year_asc", "imdb_desc", "douban_desc", "votes_desc"]

/-- FastAPI validation of the request parameters: `page >= 1`,
`1 <= page_size <= 200`, `0 <= min_reliability <= 1`, `year_min >= 1900`,
`year_max <= 2100`, and `sort` drawn from the accepted literals. -/
def ValidReq (req : Req) : Prop :=
  1 ≤ req.page ∧ 1 ≤ req.page_size ∧ req.page_size ≤ 200 ∧
  0 ≤ req.min_reliability ∧ req.min_reliability ≤ 1 ∧
  (∀ y, req.year_min = some y → 1900 ≤ y) ∧
  (∀ y, req.year_max = some y → y ≤ 2100) ∧
  req.sort ∈ sortOptions

/-- SQL `LIKE` pattern matching, fuel-indexed so that the recursion is
structural (each call consumes either a pattern or a subject character,
so `p.length + s.length + 1` fuel always suffices): `%` matches any
sequence, `_` matches any single character, every other pattern
character matches itself. -/
def likeMatchF : Nat → List Char → List Char → Bool
  | 0, _, _ => false
  | fuel + 1, p, s =>
    match p with
    | [] => s.isEmpty
    | c :: ps =>
      if c = '%' then
        likeMatchF fuel ps s ||
          (match s with
           | [] => false
           | _ :: s2 => likeMatchF fuel (c :: ps) s2)
      else
        match s with
        | [] => false
        | c2 :: s2 => (c = '_' || c = c2) && likeMatchF fuel ps s2

/-- SQL `LIKE` pattern matching over characters, with sufficient fuel. -/
def likeMatch (p s : List Char) : Bool :=
  likeMatchF (p.length + s.length + 1) p s

/-- `startsWithL s p`: the character list `p` is a prefix of `s`. -/
def startsWithL (s p : List Char) : Bool :=
  match s, p with
  | _, [] => true
  | [], _ :: _ => false
  | c2 :: s2, c :: ps => (c = c2) && startsWithL s2 ps

/-- `containsSeq s p`: the character list `p` occurs contiguously in `s`. -/
def containsSeq (s p : List Char) : Bool :=
  startsWithL s p ||
    (match s with
     | [] => false
     | _ :: s2 => containsSeq s2 p)

/-- SQL `lower()`, applied characterwise. -/
def lowerL (s : String) : List Char := s.toList.map Char.toLower

/-- One WHERE fragment together with the value bound to its placeholder,
mirroring the parallel `where_clauses` / `params` lists of `list_movies`. -/
inductive Frag where
  | base
  | likeTitle (pat : String)
  | regionEq (v : String)
  | yearGe (v : Int)
  | yearLe (v : Int)
  | relGe (v : Rat)
deriving DecidableEq, Repr

/-- Truth of one WHERE fragment at a row, under SQL three-valued logic
(a NULL comparison result keeps the row out). -/
def evalFrag (f : Frag) (r : MovieRow) : Bool :=
  match f with
  | .base => true
  | .likeTitle pat =>
      match r.title with
      | none => false
      | some t => likeMatch (lowerL pat) (lowerL t)
  | .regionEq v =>
      match r.region with
      | none => false
      | some x => x = v
  | .yearGe v =>
      match r.year with
      | none => false
      | some y => v ≤ y
  | .yearLe v =>
      match r.year with
      | none => false
      | some y => y ≤ v
  | .relGe v =>
      match r.reliability with
      | none => false
      | some x => v ≤ x

/-- The reliability-floor part of the fragment list: `list_movies` adds
`"reliability >= ?"` (with the floor bound as a parameter) only when
`min_reliability > 0`. -/
def reliability_clauses (mr : Rat) : List Frag :=
  if 0 < mr then [Frag.relGe mr] else []

/-- The Filter Compiler: the ordered fragment list that `list_movies`
builds (`"1=1"`, then the LIKE clause with the bound `%q%` parameter,
then region, year bounds, and the reliability floor — the latter only
when strictly positive).  Python's `if q:` / `if region:` treat the
empty string as absent. -/
def where_clauses (req : Req) : List Frag :=
  [Frag.base]
  ++ (match req.q with
      | none => []
      | some s => if s = "" then [] else [Frag.likeTitle ("%" ++ s ++ "%")])
  ++ (match req.region with
      | none => []
      | some v => if v = "" then [] else [Frag.regionEq v])
  ++ (match req.year_min with
      | none => []
      | some v => [Frag.yearGe v])
  ++ (match req.year_max with
      | none => []
      | some v => [Frag.yearLe v])
  ++ reliability_clauses req.min_reliability

/-- A row satisfies the conjunction (`" AND ".join`) of the compiled
fragments. -/
def matchesWhere (req : Req) (r : MovieRow) : Bool :=
  (where_clauses req).all (fun f => evalFrag f r)

/-- The count the COUNT(*) query returns for a request. -/
def countMatching (req : Req) (rows : List MovieRow) : Nat :=
  (rows.filter (fun r => matchesWhere req r)).length

/-- The column a sort key orders by. -/
inductive SortCol where
  | score
  | reliability
  | absGap
  | year
  | imdbRating
  | doubanRating
  | votesSum
deriving DecidableEq, Repr

/-- A resolved ORDER BY expression: a column and a direction (all mapped
keys use NULLS LAST; the votes key coalesces its summands so its value is
never null). -/
structure OrderSpec where
  col : SortCol
  asc : Bool
deriving DecidableEq, Repr

/-- The `sort_map` dictionary of `list_movies`, entry for entry. -/
def sort_map : List (String × OrderSpec) :=
  [("score_desc", ⟨SortCol.score, false⟩),
   ("score_asc", ⟨SortCol.score, true⟩),
   ("reliability_desc", ⟨SortCol.reliability, false⟩),
   ("gap_desc", ⟨SortCol.absGap, false⟩),
   ("year_desc", ⟨SortCol.year, false⟩),
   ("imdb_desc", ⟨SortCol.imdbRating, false⟩),
   ("douban_desc", ⟨SortCol.doubanRating, false⟩),
   ("votes_desc", ⟨SortCol.votesSum, false⟩)]

/-- The Sort Resolver: `sort_map.get(sort, "score DESC NULLS LAST")`. -/
def order_sql (sort : String) : OrderSpec :=
  (sort_map.lookup sort).getD ⟨SortCol.score, false⟩

/-- Value of the ORDER BY expression at a row (`none` = SQL NULL). -/
def colVal (c : SortCol) (r : MovieRow) : Option Rat :=
  match c with
  | .score => r.score
  | .reliability => r.reliability
  | .absGap => r.gap.map (fun g => |g|)
  | .year => r.year.map (fun y => (y : Rat))
  | .imdbRating => r.imdb_rating
  | .doubanRating => r.douban_rating
  | .votesSum => some (((r.imdb_votes.getD 0 + r.douban_votes.getD 0 : Int) : Rat))

/-- NULLS LAST comparison of two expression values: a null value sorts
after every non-null value in either direction; two non-null values are
compared ascending or descending. -/
def nullsLastLe (asc : Bool) : Option Rat → Option Rat → Bool
  | none, none => true
  | none, some _ => false
  | some _, none => true
  | some x, some y => if asc then decide (x ≤ y) else decide (y ≤ x)

/-- The ordering a resolved sort induces on rows. -/
def rowLe (sp : OrderSpec) (a b : MovieRow) : Bool :=
  nullsLastLe sp.asc (colVal sp.col a) (colVal sp.col b)

/-- Insert an element into a list ahead of the first element it is `le`
to. -/
def insertLe (le : α → α → Bool) (a : α) : List α → List α
  | [] => [a]
  | b :: l => if le a b then a :: b :: l else b :: insertLe le a l

/-- Insertion sort by a boolean ordering: the ORDER BY applied to the
filtered rows. -/
def sortLe (le : α → α → Bool) : List α → List α
  | [] => []
  | a :: l => insertLe le a (sortLe le l)

/-- A SQL value as returned in a result row. -/
inductive Value where
  | null
  | vstr (s : String)
  | vint (n : Int)
  | vrat (q : Rat)
deriving DecidableEq, Repr

/-- Python's `dict.get(key, default)`: the stored value (even if null)
when the key is present, the default only when it is absent. -/
def dictGet (d : List (String × Value)) (k : String) (dflt : Value) : Value :=
  (d.lookup k).getD dflt

/-- The pydantic `Movie` response model, fields in declaration order of
the keyword arguments in `list_movies`.  `title` is the one required
(non-optional) field. -/
structure Movie where
  movie_key : Option String
  title : String
  year : Option Int
  region : Option String
  imdb_id : Option String
  douban_id : Option Int
  imdb_url : Option String
  douban_url : Option String
  score : Option Rat
  reliability : Option Rat
  imdb_rating : Option Rat
  imdb_votes : Option Int
  douban_rating : Option Rat
  douban_votes : Option Int
  gap : Option Rat
deriving DecidableEq, Repr

/-- pydantic validation of an `Optional[str]` field: null passes through,
a string passes through, anything else is a validation error. -/
def optStrV : Value → Option (Option String)
  | .null => some none
  | .vstr s => some (some s)
  | _ => none

/-- pydantic validation of an `Optional[int]` field. -/
def optIntV : Value → Option (Option Int)
  | .null => some none
  | .vint n => some (some n)
  | _ => none

/-- pydantic validation of an `Optional[float]` field. -/
def optRatV : Value → Option (Option Rat)
  | .null => some none
  | .vrat q => some (some q)
  | _ => none

/-- The Row Projector: builds one `Movie` from a result row given as
column-name/value pairs, exactly as `list_movies` does with
`row_dict.get(...)`.  The title uses `row_dict.get('title', 'Unknown')`,
so the default applies only when the column is absent; a present-but-null
title reaches the required `title : str` field and fails validation
(`none`). -/
def projectRow (d : List (String × Value)) : Option Movie :=
  match dictGet d "title" (Value.vstr "Unknown") with
  | Value.vstr t => do
      let mk ← optStrV (dictGet d "movie_key" Value.null)
      let yr ← optIntV (dictGet d "year" Value.null)
      let rg ← optStrV (dictGet d "region" Value.null)
      let iid ← optStrV (dictGet d "imdb_id" Value.null)
      let did ← optIntV (dictGet d "douban_id" Value.null)
      let iu ← optStrV (dictGet d "imdb_url" Value.null)
      let du ← optStrV (dictGet d "douban_url" Value.null)
      let sc ← optRatV (dictGet d "score" Value.null)
      let rl ← optRatV (dictGet d "reliability" Value.null)
      let ir ← optRatV (dictGet d "imdb_rating" Value.null)
      let iv ← optIntV (dictGet d "imdb_votes" Value.null)
      let dr ← optRatV (dictGet d "douban_rating" Value.null)
      let dv ← optIntV (dictGet d "douban_votes" Value.null)
      let gp ← optRatV (dictGet d "gap" Value.null)
      some ⟨mk, t, yr, rg, iid, did, iu, du, sc, rl, ir, iv, dr, dv, gp⟩
  | _ => none

/-- `SELECT *` on the movies table: every column of a row, in table
column order, nulls included. -/
def movieRowToDict (r : MovieRow) : List (String × Value) :=
  [("title", (r.title.map Value.vstr).getD Value.null),
   ("year", (r.year.map Value.vint).getD Value.null),
   ("region", (r.region.map Value.vstr).getD Value.null),
   ("imdb_id", (r.imdb_id.map Value.vstr).getD Value.null),
   ("imdb_url", (r.imdb_url.map Value.vstr).getD Value.null),
   ("douban_id", (r.douban_id.map Value.vint).getD Value.null),
   ("douban_url", (r.douban_url.map Value.vstr).getD Value.null),
   ("imdb_rating", (r.imdb_rating.map Value.vrat).getD Value.null),
   ("imdb_votes", (r.imdb_votes.map Value.vint).getD Value.null),
   ("douban_rating", (r.douban_rating.map Value.vrat).getD Value.null),
   ("douban_votes", (r.douban_votes.map Value.vint).getD Value.null),
   ("gap", (r.gap.map Value.vrat).getD Value.null),
   ("movie_key", (r.movie_key.map Value.vstr).getD Value.null),
   ("score", (r.score.map Value.vrat).getD Value.null),
   ("reliability", (r.reliability.map Value.vrat).getD Value.null)]

/-- Projection of the whole result page, row after row: the `for row in
rows` loop, where any row failing projection aborts the request. -/
def projectAll : List MovieRow → Option (List Movie)
  | [] => some []
  | r :: rs =>
    match projectRow (movieRowToDict r), projectAll rs with
    | some m, some ms => some (m :: ms)
    | _, _ => none

/-- The page envelope (`MovieResponse`). -/
structure MovieResponse where
  page : Nat
  page_size : Nat
  total : Nat
  items : List Movie
deriving DecidableEq, Repr

/-- The `/movies` endpoint body (`list_movies`): compile the WHERE
fragments once, run the COUNT query and the data query against the same
fragments and bound parameters, order by the resolved sort, apply
`LIMIT page_size OFFSET (page-1)*page_size`, and project every returned
row.  `none` models the 500 response raised when any step of the try
block fails (here: a row failing projection). -/
def list_movies (req : Req) (rows : List MovieRow) : Option MovieResponse :=
  let matched := rows.filter (fun r => matchesWhere req r)
  let total := matched.length
  let ordered := sortLe (rowLe (order_sql req.sort)) matched
  let offset := (req.page - 1) * req.page_size
  let pageRows := (ordered.drop offset).take req.page_size
  (projectAll pageRows).map
    (fun items => ⟨req.page, req.page_size, total, items⟩)

/-- One row of `base_movies` (the primary CSV dataset after casting),
column for column, including the derived `gap`. -/
structure BaseRow where
  title : Option String
  year : Option Int
  region : Option String
  imdb_id : Option String
  imdb_url : Option String
  douban_id : Option Int
  douban_url : Option String
  imdb_rating : Option Rat
  imdb_votes : Option Int
  douban_rating : Option Rat
  douban_votes : Option Int
  gap : Option Rat
deriving DecidableEq, Repr

/-- One row of `analytics_subset` (the optional parquet dataset),
restricted to the columns the join reads. -/
structure AnalyticsRow where
  imdb_id : Option String
  movie_key : Option String
  score : Option Rat
  reliability : Option Rat
deriving DecidableEq, Repr

/-- A base row extended with enrichment values into a `movies` row. -/
def baseToMovie (b : BaseRow) (mk : Option String) (sc rl : Option Rat) : MovieRow :=
  ⟨b.title, b.year, b.region, b.imdb_id, b.imdb_url, b.douban_id, b.douban_url,
   b.imdb_rating, b.imdb_votes, b.douban_rating, b.douban_votes, b.gap, mk, sc, rl⟩

/-- The base columns of a unified row. -/
def baseFieldsOf (m : MovieRow) : BaseRow :=
  ⟨m.title, m.year, m.region, m.imdb_id, m.imdb_url, m.douban_id, m.douban_url,
   m.imdb_rating, m.imdb_votes, m.douban_rating, m.douban_votes, m.gap⟩

/-- SQL equality of two nullable identifiers in a join condition: TRUE
only when both are non-null and equal (NULL compares to nothing). -/
def sqlEqId (a b : Option String) : Bool :=
  match a, b with
  | some x, some y => x = y
  | _, _ => false

/-- The Relation Builder (`get_db`'s unified `movies` table): with
analytics present, `base_movies LEFT JOIN analytics_subset ON imdb_id`;
without, every base row extended with NULL `movie_key`, `score`,
`reliability`. -/
def get_db (base : List BaseRow) (analytics : Option (List AnalyticsRow)) :
    List MovieRow :=
  match analytics with
  | none => base.map (fun b => baseToMovie b none none none)
  | some arows =>
      base.flatMap (fun b =>
        match arows.filter (fun a => sqlEqId b.imdb_id a.imdb_id) with
        | [] => [baseToMovie b none none none]
        | ms => ms.map (fun a => baseToMovie b a.movie_key a.score a.reliability))

/-- Outcome of one attempt of the external IMDb page fetch that
`get_movie_poster` performs: an exception, a non-200 status, a 200 page
without a usable `og:image` meta tag, or a found poster URL. -/
inductive ExtResult where
  | exc
  | non200
  | noMeta
  | ok (url : String)
deriving DecidableEq, Repr

/-- The external attempt failed to produce a poster URL. -/
def extFailed : ExtResult → Bool
  | .ok _ => false
  | _ => true

/-- What one `GET /movie/{id}/poster` call produces: the response body's
`url`, the poster cache afterwards, and whether an external request was
issued. -/
structure PosterOutcome where
  url : Option String
  cache : List (String × String)
  calledExternal : Bool
deriving DecidableEq, Repr

/-- The poster endpoint (`get_movie_poster`): empty or literal "None"
ids short-circuit to null; a cached id is answered from the cache with
no external call; otherwise one external fetch is attempted, a success
is cached and returned, and every failure degrades to a null URL. -/
def get_movie_poster (imdb_id : String) (cache : List (String × String))
    (ext : ExtResult) : PosterOutcome :=
  if imdb_id = "" || imdb_id = "None" then ⟨none, cache, false⟩
  else
    match cache.lookup imdb_id with
    | some u => ⟨some u, cache, false⟩
    | none =>
        match ext with
        | .ok url => ⟨some url, (imdb_id, url) :: cache, true⟩
        | _ => ⟨none, cache, true⟩

/-! ### Sorting lemmas -/

theorem length_insertLe (le : α → α → Bool) (a : α) (l : List α) :
    (insertLe le a l).length = l.length + 1 := by
  induction l with
  | nil => rfl
  | cons b l ih =>
    simp only [insertLe]
    by_cases h : le a b = true
    · simp [h]
    · simp [h, ih]

theorem length_sortLe (le : α → α → Bool) (l : List α) :
    (sortLe le l).length = l.length := by
  induction l with
  | nil => rfl
  | cons a l ih => simp [sortLe, length_insertLe, ih]

theorem mem_insertLe (le : α → α → Bool) (a x : α) (l : List α) :
    x ∈ insertLe le a l ↔ x = a ∨ x ∈ l := by
  induction l with
  | nil => simp [insertLe]
  | cons b l ih =>
    simp only [insertLe]
    by_cases h : le a b = true
    · simp [h, List.mem_cons]
    · rw [if_neg h]
      simp only [List.mem_cons, ih]
      tauto

theorem pairwise_insertLe (le : α → α → Bool)
    (htot : ∀ x y, le x y = true ∨ le y x = true)
    (htr : ∀ x y z, le x y = true → le y z = true → le x z = true)
    (a : α) (l : List α) (hl : l.Pairwise (fun x y => le x y = true)) :
    (insertLe le a l).Pairwise (fun x y => le x y = true) := by
  induction l with
  | nil => simp [insertLe]
  | cons b l ih =>
    rcases List.pairwise_cons.mp hl with ⟨hb, hl2⟩
    simp only [insertLe]
    by_cases h : le a b = true
    · rw [if_pos h]
      refine List.Pairwise.cons ?_ hl
      intro x hx
      rcases List.mem_cons.mp hx with rfl | hx2
      · exact h
      · exact htr a b x h (hb x hx2)
    · rw [if_neg h]
      refine List.Pairwise.cons ?_ (ih hl2)
      intro x hx
      rcases (mem_insertLe le a x l).mp hx with rfl | hx2
      · rcases htot x b with h2 | h2
        · exact absurd h2 h
        · exact h2
      · exact hb x hx2

theorem pairwise_sortLe (le : α → α → Bool)
    (htot : ∀ x y, le x y = true ∨ le y x = true)
    (htr : ∀ x y z, le x y = true → le y z = true → le x z = true)
    (l : List α) :
    (sortLe le l).Pairwise (fun x y => le x y = true) := by
  induction l with
  | nil => simp [sortLe]
  | cons a l ih => exact pairwise_insertLe le htot htr a _ ih

/-! ### Ordering is total, transitive, and puts nulls last -/

theorem nullsLastLe_total (asc : Bool) (u v : Option Rat) :
    nullsLastLe asc u v = true ∨ nullsLastLe asc v u = true := by
  cases u with
  | none => cases v <;> simp [nullsLastLe]
  | some x =>
    cases v with
    | none => simp [nullsLastLe]
    | some y =>
      cases asc <;> simp [nullsLastLe, decide_eq_true_iff]
      · exact le_total y x
      · exact le_total x y

theorem nullsLastLe_trans (asc : Bool) (u v w : Option Rat)
    (h1 : nullsLastLe asc u v = true) (h2 : nullsLastLe asc v w = true) :
    nullsLastLe asc u w = true := by
  cases u <;> cases v <;> cases w <;>
    simp [nullsLastLe, decide_eq_true_iff] at h1 h2 ⊢ <;>
    cases asc <;> simp [decide_eq_true_iff] at h1 h2 ⊢
  · exact le_trans h2 h1
  · exact le_trans h1 h2

theorem rowLe_total (sp : OrderSpec) (a b : MovieRow) :
    rowLe sp a b = true ∨ rowLe sp b a = true :=
  nullsLastLe_total sp.asc (colVal sp.col a) (colVal sp.col b)

theorem rowLe_trans (sp : OrderSpec) (a b c : MovieRow)
    (h1 : rowLe sp a b = true) (h2 : rowLe sp b c = true) :
    rowLe sp a c = true :=
  nullsLastLe_trans sp.asc (colVal sp.col a) (colVal sp.col b) (colVal sp.col c) h1 h2

theorem rowLe_none_last (sp : OrderSpec) (a b : MovieRow)
    (h : rowLe sp a b = true) (ha : colVal sp.col a = none) :
    colVal sp.col b = none := by
  unfold rowLe at h
  rw [ha] at h
  cases hb : colVal sp.col b with
  | none => rfl
  | some y => rw [hb] at h; exact absurd h (by simp [nullsLastLe])

/-! ### Projection lemmas -/

theorem projectAll_length (rs : List MovieRow) (ms : List Movie)
    (h : projectAll rs = some ms) : ms.length = rs.length := by
  induction rs generalizing ms with
  | nil =>
    simp only [projectAll, Option.some.injEq] at h
    subst h; rfl
  | cons r rs ih =>
    simp only [projectAll] at h
    cases hp : projectRow (movieRowToDict r) with
    | none => rw [hp] at h; exact absurd h (by simp)
    | some m =>
      cases hq : projectAll rs with
      | none => rw [hp, hq] at h; exact absurd h (by simp)
      | some ms2 =>
        rw [hp, hq] at h
        simp only [Option.some.injEq] at h
        subst h
        simp [ih ms2 hq]

/-! ### LIKE-matching lemmas -/

theorem likeMatchF_succ_percent (f : Nat) (ps s : List Char) :
    likeMatchF (f + 1) ('%' :: ps) s =
      (likeMatchF f ps s ||
        (match s with
         | [] => false
         | _ :: s2 => likeMatchF f ('%' :: ps) s2)) := by
  cases s <;> rfl

theorem likeMatchF_succ_lit (f : Nat) (c : Char) (ps s : List Char) (hc : c ≠ '%') :
    likeMatchF (f + 1) (c :: ps) s =
      (match s with
       | [] => false
       | c2 :: s2 => (c = '_' || c = c2) && likeMatchF f ps s2) := by
  cases s with
  | nil =>
    show (if c = '%' then likeMatchF f ps [] || false else false) = false
    rw [if_neg hc]
  | cons c2 s2 =>
    show (if c = '%' then likeMatchF f ps (c2 :: s2) || likeMatchF f (c :: ps) s2
          else (c = '_' || c = c2) && likeMatchF f ps s2) =
        ((c = '_' || c = c2) && likeMatchF f ps s2)
    rw [if_neg hc]

theorem likeMatchF_congr (f : Nat) : ∀ (g : Nat) (p s : List Char),
    p.length + s.length < f → p.length + s.length < g →
    likeMatchF f p s = likeMatchF g p s := by
  induction f with
  | zero => intro g p s hf _; exact absurd hf (by omega)
  | succ f ih =>
    intro g p s hf hg
    cases g with
    | zero => exact absurd hg (by omega)
    | succ g =>
      cases p with
      | nil => simp [likeMatchF]
      | cons c ps =>
        by_cases hc : c = '%'
        · subst hc
          rw [likeMatchF_succ_percent, likeMatchF_succ_percent]
          cases s with
          | nil =>
            have e1 : likeMatchF f ps [] = likeMatchF g ps [] :=
              ih g ps [] (by simp at hf ⊢; omega) (by simp at hg ⊢; omega)
            simp [e1]
          | cons c2 s2 =>
            have e1 : likeMatchF f ps (c2 :: s2) = likeMatchF g ps (c2 :: s2) :=
              ih g ps (c2 :: s2) (by simp at hf ⊢; omega) (by simp at hg ⊢; omega)
            have e2 : likeMatchF f ('%' :: ps) s2 = likeMatchF g ('%' :: ps) s2 :=
              ih g ('%' :: ps) s2 (by simp at hf ⊢; omega) (by simp at hg ⊢; omega)
            simp [e1, e2]
        · rw [likeMatchF_succ_lit f c ps s hc, likeMatchF_succ_lit g c ps s hc]
          cases s with
          | nil => rfl
          | cons c2 s2 =>
            have e2 : likeMatchF f ps s2 = likeMatchF g ps s2 :=
              ih g ps s2 (by simp at hf ⊢; omega) (by simp at hg ⊢; omega)
            simp [e2]

theorem likeMatchF_adequate (f : Nat) (p s : List Char)
    (h : p.length + s.length < f) : likeMatchF f p s = likeMatch p s :=
  likeMatchF_congr f (p.length + s.length + 1) p s h (by omega)

theorem likeMatch_nil (s : List Char) : likeMatch [] s = s.isEmpty := rfl

theorem likeMatch_percent (ps s : List Char) :
    likeMatch ('%' :: ps) s =
      (likeMatch ps s ||
        (match s with
         | [] => false
         | _ :: s2 => likeMatch ('%' :: ps) s2)) := by
  cases s with
  | nil =>
    show likeMatchF (('%' :: ps).length + ([] : List Char).length + 1) ('%' :: ps) [] = _
    rw [likeMatchF_succ_percent]
    rw [likeMatchF_adequate _ _ _ (by simp)]
  | cons c2 s2 =>
    show likeMatchF (('%' :: ps).length + (c2 :: s2).length + 1) ('%' :: ps) (c2 :: s2) = _
    rw [likeMatchF_succ_percent]
    have hA := likeMatchF_adequate (('%' :: ps).length + (c2 :: s2).length) ps (c2 :: s2)
      (by simp)
    have hB := likeMatchF_adequate (('%' :: ps).length + (c2 :: s2).length) ('%' :: ps) s2
      (by simp)
    simp only [hA, hB]

theorem likeMatch_lit (c : Char) (ps s : List Char) (hc : c ≠ '%') :
    likeMatch (c :: ps) s =
      (match s with
       | [] => false
       | c2 :: s2 => (c = '_' || c = c2) && likeMatch ps s2) := by
  cases s with
  | nil =>
    show likeMatchF ((c :: ps).length + ([] : List Char).length + 1) (c :: ps) [] = _
    rw [likeMatchF_succ_lit _ _ _ _ hc]
  | cons c2 s2 =>
    show likeMatchF ((c :: ps).length + (c2 :: s2).length + 1) (c :: ps) (c2 :: s2) = _
    rw [likeMatchF_succ_lit _ _ _ _ hc]
    have hA := likeMatchF_adequate ((c :: ps).length + (c2 :: s2).length) ps s2
      (by simp; omega)
    simp only [hA]

theorem likeMatch_percent_nil (s : List Char) : likeMatch ['%'] s = true := by
  induction s with
  | nil => rw [likeMatch_percent]; simp [likeMatch_nil]
  | cons c s ih => rw [likeMatch_percent]; simp [ih]

theorem likeMatch_lit_percent (q : List Char) (hw : ∀ c ∈ q, c ≠ '%' ∧ c ≠ '_') :
    ∀ s, likeMatch (q ++ ['%']) s = startsWithL s q := by
  induction q with
  | nil =>
    intro s
    simpa [startsWithL] using likeMatch_percent_nil s
  | cons c q ih =>
    intro s
    obtain ⟨hc1, hc2⟩ := hw c (List.mem_cons_self c q)
    rw [List.cons_append, likeMatch_lit c _ s hc1]
    cases s with
    | nil => simp [startsWithL]
    | cons c2 s2 =>
      have ihs := ih (fun d hd => hw d (List.mem_cons_of_mem c hd)) s2
      simp [startsWithL, ihs, hc2]

theorem likeMatch_contains (q : List Char) (hw : ∀ c ∈ q, c ≠ '%' ∧ c ≠ '_') :
    ∀ s, likeMatch ('%' :: (q ++ ['%'])) s = containsSeq s q := by
  intro s
  induction s with
  | nil =>
    rw [likeMatch_percent]
    simp [containsSeq, likeMatch_lit_percent q hw]
  | cons c s2 ih =>
    rw [likeMatch_percent]
    simp only [containsSeq, likeMatch_lit_percent q hw, ih]

/-! ### Lowercasing lemmas -/

theorem toLower_ne_wild (c : Char) (h1 : c ≠ '%') (h2 : c ≠ '_') :
    c.toLower ≠ '%' ∧ c.toLower ≠ '_' := by
  have hd : c.toLower =
      if c.toNat ≥ 65 ∧ c.toNat ≤ 90 then Char.ofNat (c.toNat + 32) else c := rfl
  rw [hd]
  by_cases h : c.toNat ≥ 65 ∧ c.toNat ≤ 90
  · rw [if_pos h]
    obtain ⟨ha, hb⟩ := h
    generalize c.toNat = n at ha hb
    interval_cases n <;> exact ⟨by decide, by decide⟩
  · rw [if_neg h]
    exact ⟨h1, h2⟩

theorem lowerL_wild (s : String) (hw : ∀ c ∈ s.toList, c ≠ '%' ∧ c ≠ '_') :
    ∀ c ∈ lowerL s, c ≠ '%' ∧ c ≠ '_' := by
  intro c hc
  simp only [lowerL, List.mem_map] at hc
  obtain ⟨c0, hc0, rfl⟩ := hc
  exact toLower_ne_wild c0 (hw c0 hc0).1 (hw c0 hc0).2

theorem lowerL_pattern (s : String) :
    lowerL ("%" ++ s ++ "%") = '%' :: (lowerL s ++ ['%']) := by
  simp only [lowerL, String.toList, String.data_append, List.map_append]
  rfl

/-! ### The endpoint, unfolded -/

theorem list_movies_eq (req : Req) (rows : List MovieRow) :
    list_movies req rows =
      (projectAll (((sortLe (rowLe (order_sql req.sort))
          (rows.filter (fun r => matchesWhere req r))).drop
            ((req.page - 1) * req.page_size)).take req.page_size)).map
        (fun items => ⟨req.page, req.page_size,
          (rows.filter (fun r => matchesWhere req r)).length, items⟩) := rfl

/-! ### Claim 1 -/

/-- C1: the count query and the data query are driven by the same
compiled WHERE fragments and parameters, so `total` counts exactly the
predicate that produced `items`; concretely, for a valid request with
`page = 1` and `page_size` equal to the match count, a successful
response returns exactly `total` items. -/
theorem claim1_total_consistent (req : Req) (rows : List MovieRow)
    (hv : ValidReq req) (hp : req.page = 1)
    (hs : req.page_size = countMatching req rows)
    (env : MovieResponse) (henv : list_movies req rows = some env) :
    env.total = countMatching req rows ∧ env.items.length = env.total := by
  rw [list_movies_eq] at henv
  rw [Option.map_eq_some'] at henv
  obtain ⟨items, hpa, henv⟩ := henv
  subst henv
  refine ⟨rfl, ?_⟩
  have hlen := projectAll_length _ _ hpa
  have hsort := length_sortLe (rowLe (order_sql req.sort))
      (rows.filter (fun r => matchesWhere req r))
  simp only [hp] at hlen
  simp only [Nat.sub_self, Nat.zero_mul, List.drop_zero] at hlen
  rw [List.length_take, hsort] at hlen
  simp only [hlen, hs, countMatching, Nat.min_self]

/-- A one-row table used to instantiate the pagination theorems. -/
def w1row : MovieRow :=
  ⟨some "Inception", some 2010, some "US", some "tt1375666", none, none, none,
   some (8 : Rat), some 2000000, some (9 : Rat), some 800000, some (1 : Rat),
   none, none, none⟩

/-- The `Movie` record `w1row` projects to. -/
def w1movie : Movie :=
  ⟨none, "Inception", some 2010, some "US", some "tt1375666", none, none, none,
   none, none, some (8 : Rat), some 2000000, some (9 : Rat), some 800000,
   some (1 : Rat)⟩

/-- A request for one full page of size equal to the match count. -/
def w1req : Req := ⟨none, none, none, none, 0, "score_desc", 1, 1⟩

theorem claim1_witness :
    (⟨1, 1, 1, [w1movie]⟩ : MovieResponse).total = countMatching w1req [w1row] ∧
    (⟨1, 1, 1, [w1movie]⟩ : MovieResponse).items.length
      = (⟨1, 1, 1, [w1movie]⟩ : MovieResponse).total := by
  have hval : ValidReq w1req := by
    refine ⟨by decide, by decide, by decide, by decide, by decide, ?_, ?_, by decide⟩
    · intro y h; cases h
    · intro y h; cases h
  exact claim1_total_consistent w1req [w1row] hval rfl (by decide) _ (by decide)

/-! ### Claim 3 -/

/-- C3: for a valid request the data query is offset by exactly
`(page-1)*page_size`, a successful page carries at most `page_size`
items and the full match count, and an offset at or beyond `total`
yields a successful empty page (same `total`), not an error. -/
theorem claim3_pagination (req : Req) (rows : List MovieRow) (hv : ValidReq req) :
    (∀ env, list_movies req rows = some env →
      env.items.length ≤ req.page_size ∧
      env.total = countMatching req rows ∧
      env.page = req.page ∧ env.page_size = req.page_size) ∧
    (countMatching req rows ≤ (req.page - 1) * req.page_size →
      list_movies req rows = some ⟨req.page, req.page_size, countMatching req rows, []⟩) := by
  constructor
  · intro env henv
    rw [list_movies_eq] at henv
    rw [Option.map_eq_some'] at henv
    obtain ⟨items, hpa, henv⟩ := henv
    subst henv
    refine ⟨?_, rfl, rfl, rfl⟩
    have hlen := projectAll_length _ _ hpa
    simp only [hlen, List.length_take]
    exact min_le_left _ _
  · intro hoff
    rw [list_movies_eq]
    have hdrop : (sortLe (rowLe (order_sql req.sort))
        (rows.filter (fun r => matchesWhere req r))).drop
          ((req.page - 1) * req.page_size) = [] := by
      refine List.drop_eq_nil_of_le ?_
      rw [length_sortLe]
      exact hoff
    rw [hdrop, List.take_nil]
    rfl

/-- A request for a page far past the one matching row. -/
def w3req : Req := ⟨none, none, none, none, 0, "year_desc", 7, 50⟩

theorem claim3_witness :
    (∀ env, list_movies w3req [w1row] = some env →
      env.items.length ≤ w3req.page_size ∧
      env.total = countMatching w3req [w1row] ∧
      env.page = w3req.page ∧ env.page_size = w3req.page_size) ∧
    (countMatching w3req [w1row] ≤ (w3req.page - 1) * w3req.page_size →
      list_movies w3req [w1row]
        = some ⟨w3req.page, w3req.page_size, countMatching w3req [w1row], []⟩) := by
  have hval : ValidReq w3req := by
    refine ⟨by decide, by decide, by decide, by decide, by decide, ?_, ?_, by decide⟩
    · intro y h; cases h
    · intro y h; cases h
  exact claim3_pagination w3req [w1row] hval

/-! ### Claim 2 -/

/-- C2 (amended): a present, non-empty search term is compiled into a
single extra fragment whose bound parameter is the term wrapped in `%`
wildcards (query structure is never altered, so `'` and `;` in the term
are inert), and for a term free of the LIKE wildcards `%` and `_` that
fragment holds at a row exactly when the row's title contains the term
as a case-insensitive substring.  (A term containing `%` or `_` is NOT
matched literally: those characters keep their wildcard meaning inside
the bound pattern.) -/
theorem claim2_search_amended (req : Req) (s : String) (hq : req.q = some s)
    (hne : s ≠ "") (hw : ∀ c ∈ s.toList, c ≠ '%' ∧ c ≠ '_') (r : MovieRow) :
    where_clauses req =
      Frag.base :: Frag.likeTitle ("%" ++ s ++ "%")
        :: (where_clauses { req with q := none }).tail ∧
    evalFrag (Frag.likeTitle ("%" ++ s ++ "%")) r =
      (match r.title with
       | none => false
       | some t => containsSeq (lowerL t) (lowerL s)) := by
  constructor
  · simp [where_clauses, hq, hne]
  · cases ht : r.title with
    | none => simp [evalFrag, ht]
    | some t =>
      simp only [evalFrag, ht]
      rw [lowerL_pattern]
      exact likeMatch_contains (lowerL s) (lowerL_wild s hw) (lowerL t)

/-- A request searching for the literal term `matrix`. -/
def w2req : Req := ⟨some "Matrix", none, none, none, 0, "score_desc", 1, 50⟩

theorem claim2_witness :
    where_clauses w2req =
      Frag.base :: Frag.likeTitle ("%" ++ "Matrix" ++ "%")
        :: (where_clauses { w2req with q := none }).tail ∧
    evalFrag (Frag.likeTitle ("%" ++ "Matrix" ++ "%")) w1row =
      (match w1row.title with
       | none => false
       | some t => containsSeq (lowerL t) (lowerL "Matrix")) :=
  claim2_search_amended w2req "Matrix" rfl (by decide) (by decide) w1row

/-- A request whose search term contains the SQL metacharacter `%`. -/
def c2req : Req := ⟨some "a%b", none, none, none, 0, "score_desc", 1, 50⟩

/-- A movies-table row whose title does not literally contain `a%b`. -/
def c2row : MovieRow :=
  ⟨some "axb", none, none, none, none, none, none, none, none, none, none,
   none, none, none, none⟩

/-- C2 counterexample: searching for `a%b` (which contains the
metacharacter `%`) returns the row titled `axb`, although `axb` does not
contain `a%b` as a (case-insensitive) substring — the claim that such a
term "neither alters the query structure nor matches rows whose title
does not literally contain the term" is false on its second half. -/
theorem claim2_counterexample :
    list_movies c2req [c2row] =
      some ⟨1, 50, 1, [⟨none, "axb", none, none, none, none, none, none, none,
        none, none, none, none, none, none⟩]⟩ ∧
    containsSeq (lowerL "axb") (lowerL "a%b") = false := by
  exact ⟨by decide, by decide⟩

/-! ### Claim 4 -/

/-- C4 (amended): a sort key without an entry in `sort_map` (including
the accepted enum value `gap_asc`) does not fail the request; it falls
back to the fixed default `score DESC NULLS LAST` — the same ordering as
`score_desc` — not to most-recent-year-first. -/
theorem claim4_sort_fallback_amended (s : String)
    (hs : sort_map.lookup s = none) :
    order_sql s = ⟨SortCol.score, false⟩ ∧
    ∀ req rows, req.sort = s →
      list_movies req rows = list_movies { req with sort := "score_desc" } rows := by
  have hres : order_sql s = ⟨SortCol.score, false⟩ := by
    simp [order_sql, hs]
  refine ⟨hres, ?_⟩
  intro req rows hreq
  rw [list_movies_eq, list_movies_eq]
  rw [hreq, hres]
  rfl

/-- Two rows on which most-recent-year-first and score-descending orders
disagree. -/
def c4rows : List MovieRow :=
  [⟨some "A", some 2000, none, none, none, none, none, none, none, none, none,
    none, none, some (5 : Rat), none⟩,
   ⟨some "B", some 2020, none, none, none, none, none, none, none, none, none,
    none, none, some (1 : Rat), none⟩]

/-- A request using the accepted but unmapped sort key `gap_asc`. -/
def c4reqGap : Req := ⟨none, none, none, none, 0, "gap_asc", 1, 50⟩

/-- The same request under `year_desc` (most-recent-year-first). -/
def c4reqYear : Req := ⟨none, none, none, none, 0, "year_desc", 1, 50⟩

/-- C4 counterexample: `gap_asc` is accepted by the endpoint but absent
from `sort_map`, and the applied fallback ordering is score-descending,
which on these rows produces `[A, B]` while most-recent-year-first
produces `[B, A]` — so the claimed year-first fallback is false. -/
theorem claim4_counterexample :
    sort_map.lookup "gap_asc" = none ∧
    (list_movies c4reqGap c4rows).map (fun e => e.items.map Movie.title)
      = some ["A", "B"] ∧
    (list_movies c4reqYear c4rows).map (fun e => e.items.map Movie.title)
      = some ["B", "A"] := by
  exact ⟨by decide, by decide, by decide⟩

theorem claim4_witness :
    order_sql "gap_asc" = ⟨SortCol.score, false⟩ ∧
    ∀ req rows, req.sort = "gap_asc" →
      list_movies req rows = list_movies { req with sort := "score_desc" } rows :=
  claim4_sort_fallback_amended "gap_asc" (by decide)

/-! ### Claim 5 -/

/-- C5: the reliability floor fragment (added only when the floor is
strictly positive) behaves like comparing a null-coalesced reliability
against the bound floor: a floor of 0 excludes nothing (null reliability
included), a positive floor passes exactly the rows with non-null
reliability at or above it, and on rows whose reliability is never
negative the filter coincides with `COALESCE(reliability, 0) >= floor`.
-/
theorem claim5_reliability_floor (mr : Rat) (h0 : 0 ≤ mr) (h1 : mr ≤ 1)
    (r : MovieRow) :
    (mr = 0 → (reliability_clauses mr).all (fun f => evalFrag f r) = true) ∧
    (0 < mr → ((reliability_clauses mr).all (fun f => evalFrag f r) = true ↔
        ∃ x, r.reliability = some x ∧ mr ≤ x)) ∧
    ((∀ x, r.reliability = some x → 0 ≤ x) →
      (reliability_clauses mr).all (fun f => evalFrag f r) =
        decide (mr ≤ r.reliability.getD 0)) := by
  refine ⟨?_, ?_, ?_⟩
  · intro h
    subst h
    simp [reliability_clauses]
  · intro hpos
    simp only [reliability_clauses, if_pos hpos, List.all_cons, List.all_nil,
      Bool.and_true, evalFrag]
    cases hr : r.reliability with
    | none => simp
    | some x => simp [decide_eq_true_iff]
  · intro hnn
    rcases lt_or_eq_of_le h0 with hpos | heq
    · simp only [reliability_clauses, if_pos hpos, List.all_cons, List.all_nil,
        Bool.and_true, evalFrag]
      cases hr : r.reliability with
      | none =>
        simp only [Option.getD_none]
        symm
        simp only [decide_eq_false_iff_not]
        exact not_le.mpr hpos
      | some x => simp
    · rw [← heq]
      simp only [reliability_clauses, lt_irrefl, if_false, List.all_nil]
      symm
      simp only [decide_eq_true_iff]
      cases hr : r.reliability with
      | none => simp
      | some x => simpa using hnn x hr

/-- A row carrying a (maximal) reliability value. -/
def w5row : MovieRow :=
  ⟨some "R", none, none, none, none, none, none, none, none, none, none, none,
   some "k1", some (2 : Rat), some (1 : Rat)⟩

theorem claim5_witness :
    ((1 : Rat) = 0 →
      (reliability_clauses 1).all (fun f => evalFrag f w5row) = true) ∧
    (0 < (1 : Rat) →
      ((reliability_clauses 1).all (fun f => evalFrag f w5row) = true ↔
        ∃ x, w5row.reliability = some x ∧ (1 : Rat) ≤ x)) ∧
    ((∀ x, w5row.reliability = some x → 0 ≤ x) →
      (reliability_clauses 1).all (fun f => evalFrag f w5row) =
        decide ((1 : Rat) ≤ w5row.reliability.getD 0)) :=
  claim5_reliability_floor 1 (by decide) (by decide) w5row

/-! ### Claim 6 -/

/-- C6: for every sort key in `sort_map` (every mapped key), the order
the data query applies puts every row with a non-null sort expression
before every row with a null one, regardless of direction: in the sorted
output, once a row's sort value is null, every later row's sort value is
null too. -/
theorem claim6_nulls_last (s : String) (hs : s ∈ sort_map.map Prod.fst)
    (rows : List MovieRow) :
    (sortLe (rowLe (order_sql s)) rows).Pairwise
      (fun a b => colVal (order_sql s).col a = none →
        colVal (order_sql s).col b = none) := by
  have hp := pairwise_sortLe (rowLe (order_sql s))
      (fun x y => rowLe_total (order_sql s) x y)
      (fun x y z => rowLe_trans (order_sql s) x y z) rows
  exact hp.imp (fun hxy ha => rowLe_none_last _ _ _ hxy ha)

/-- Rows with and without a year, for the null-ordering witness. -/
def w6rows : List MovieRow :=
  [⟨some "N1", none, none, none, none, none, none, none, none, none, none,
    none, none, none, none⟩,
   ⟨some "Y", some 1999, none, none, none, none, none, none, none, none, none,
    none, none, none, none⟩,
   ⟨some "N2", none, none, none, none, none, none, none, none, none, none,
    none, none, none, none⟩]

theorem claim6_witness :
    (sortLe (rowLe (order_sql "year_desc")) w6rows).Pairwise
      (fun a b => colVal (order_sql "year_desc").col a = none →
        colVal (order_sql "year_desc").col b = none) :=
  claim6_nulls_last "year_desc" (by decide) w6rows

/-! ### Claim 7 -/

theorem optStrV_roundtrip (o : Option String) :
    optStrV ((o.map Value.vstr).getD Value.null) = some o := by cases o <;> rfl

theorem optIntV_roundtrip (o : Option Int) :
    optIntV ((o.map Value.vint).getD Value.null) = some o := by cases o <;> rfl

theorem optRatV_roundtrip (o : Option Rat) :
    optRatV ((o.map Value.vrat).getD Value.null) = some o := by cases o <;> rfl

/-- C7 (amended): on a result row whose title is a non-null string the
projector yields one `Movie` passing every optional field through as-is;
when the title column is entirely absent from the row it substitutes the
literal placeholder "Unknown" (and still passes the other fields
through).  A present-but-null title, however, is NOT replaced by
"Unknown": it reaches the required `title` field and the projection
fails (see the counterexample). -/
theorem claim7_projector_amended (r : MovieRow) (t : String)
    (ht : r.title = some t) :
    projectRow (movieRowToDict r) =
      some ⟨r.movie_key, t, r.year, r.region, r.imdb_id, r.douban_id, r.imdb_url,
            r.douban_url, r.score, r.reliability, r.imdb_rating, r.imdb_votes,
            r.douban_rating, r.douban_votes, r.gap⟩ ∧
    projectRow ((movieRowToDict r).filter (fun kv => kv.1 ≠ "title")) =
      some ⟨r.movie_key, "Unknown", r.year, r.region, r.imdb_id, r.douban_id,
            r.imdb_url, r.douban_url, r.score, r.reliability, r.imdb_rating,
            r.imdb_votes, r.douban_rating, r.douban_votes, r.gap⟩ := by
  constructor
  · simp [projectRow, movieRowToDict, dictGet, List.lookup, ht,
      optStrV_roundtrip, optIntV_roundtrip, optRatV_roundtrip]
  · simp [projectRow, movieRowToDict, dictGet, List.lookup, List.filter,
      optStrV_roundtrip, optIntV_roundtrip, optRatV_roundtrip]

/-- C7 counterexample: a row whose title column is present but null does
not get the "Unknown" placeholder — the projection fails (`none`, the
request errors) — while a row missing the title column altogether does
get "Unknown".  This refutes "substitutes the literal placeholder
\"Unknown\" for the title when it is null or absent ... without failing".
-/
theorem claim7_counterexample :
    projectRow [("title", Value.null)] = none ∧
    projectRow [] =
      some ⟨none, "Unknown", none, none, none, none, none, none, none, none,
            none, none, none, none, none⟩ := by
  exact ⟨rfl, rfl⟩

theorem claim7_witness :
    projectRow (movieRowToDict w1row) =
      some ⟨w1row.movie_key, "Inception", w1row.year, w1row.region,
            w1row.imdb_id, w1row.douban_id, w1row.imdb_url, w1row.douban_url,
            w1row.score, w1row.reliability, w1row.imdb_rating, w1row.imdb_votes,
            w1row.douban_rating, w1row.douban_votes, w1row.gap⟩ ∧
    projectRow ((movieRowToDict w1row).filter (fun kv => kv.1 ≠ "title")) =
      some ⟨w1row.movie_key, "Unknown", w1row.year, w1row.region,
            w1row.imdb_id, w1row.douban_id, w1row.imdb_url, w1row.douban_url,
            w1row.score, w1row.reliability, w1row.imdb_rating, w1row.imdb_votes,
            w1row.douban_rating, w1row.douban_votes, w1row.gap⟩ :=
  claim7_projector_amended w1row "Inception" rfl

/-! ### Claim 8 -/

theorem baseFieldsOf_baseToMovie (b : BaseRow) (mk : Option String)
    (sc rl : Option Rat) : baseFieldsOf (baseToMovie b mk sc rl) = b := rfl

/-- C8: the Relation Builder never drops a base record.  Without the
analytics dataset the unified relation holds exactly one row per base
row, with `movie_key`, `score` and `reliability` universally null.  With
the analytics dataset the join is left-outer on `imdb_id`: every base
row survives (base columns intact), and a base row matching no analytics
row appears with null enrichment columns. -/
theorem claim8_relation_builder (base : List BaseRow)
    (arows : List AnalyticsRow) :
    ((get_db base none).length = base.length ∧
      ∀ m ∈ get_db base none,
        m.movie_key = none ∧ m.score = none ∧ m.reliability = none ∧
        baseFieldsOf m ∈ base) ∧
    (∀ b ∈ base, ∃ m ∈ get_db base (some arows), baseFieldsOf m = b) ∧
    (∀ b ∈ base, (∀ a ∈ arows, sqlEqId b.imdb_id a.imdb_id = false) →
      baseToMovie b none none none ∈ get_db base (some arows)) := by
  refine ⟨⟨?_, ?_⟩, ?_, ?_⟩
  · simp [get_db]
  · intro m hm
    simp only [get_db, List.mem_map] at hm
    obtain ⟨b, hb, rfl⟩ := hm
    exact ⟨rfl, rfl, rfl, by rw [baseFieldsOf_baseToMovie]; exact hb⟩
  · intro b hb
    simp only [get_db, List.mem_flatMap]
    cases hf : arows.filter (fun a => sqlEqId b.imdb_id a.imdb_id) with
    | nil =>
      refine ⟨baseToMovie b none none none, ⟨b, hb, ?_⟩, rfl⟩
      rw [hf]
      exact List.mem_singleton.mpr rfl
    | cons a rest =>
      refine ⟨baseToMovie b a.movie_key a.score a.reliability, ⟨b, hb, ?_⟩, rfl⟩
      rw [hf]
      exact List.mem_map_of_mem _ (List.mem_cons_self a rest)
  · intro b hb hnone
    have hf : arows.filter (fun a => sqlEqId b.imdb_id a.imdb_id) = [] := by
      rw [List.filter_eq_nil_iff]
      intro a ha
      simp [hnone a ha]
    simp only [get_db, List.mem_flatMap]
    refine ⟨b, hb, ?_⟩
    rw [hf]
    exact List.mem_singleton.mpr rfl

/-! ### Claim 9 -/

/-- Three rows, identical except for their gaps +2, −3, +1. -/
def c9rows : List MovieRow :=
  [⟨some "A", none, none, none, none, none, none, none, none, none, none,
    some (2 : Rat), none, none, none⟩,
   ⟨some "B", none, none, none, none, none, none, none, none, none, none,
    some (-3 : Rat), none, none, none⟩,
   ⟨some "C", none, none, none, none, none, none, none, none, none, none,
    some (1 : Rat), none, none, none⟩]

/-- The `gap_desc` request over those rows. -/
def c9req : Req := ⟨none, none, none, none, 0, "gap_desc", 1, 50⟩

/-- C9: `gap_desc` resolves to ordering by `abs(gap)` descending, and on
rows with gaps {+2, −3, +1} the returned order is {−3, +2, +1} — by
magnitude, not by signed value. -/
theorem claim9_gap_magnitude :
    order_sql "gap_desc" = ⟨SortCol.absGap, false⟩ ∧
    (list_movies c9req c9rows).map (fun e => e.items.map Movie.title)
      = some ["B", "A", "C"] ∧
    (list_movies c9req c9rows).map
        (fun e => e.items.map (fun m => m.gap))
      = some [some (-3 : Rat), some (2 : Rat), some (1 : Rat)] := by
  exact ⟨by decide, by decide, by decide⟩

/-! ### Claim 10 -/

/-- C10: the poster endpoint never surfaces an error: whenever it does
issue an external lookup and that lookup fails (exception, non-200, or
missing image metadata) the response is a null URL with the cache left
unchanged; and after a first successful (externally fetched) lookup for
an identifier, a second request for the same identifier is served from
the cache — it issues no external call and returns the same URL. -/
theorem claim10_poster (imdb_id : String) (cache : List (String × String))
    (ext e2 : ExtResult) :
    ((get_movie_poster imdb_id cache ext).calledExternal = true →
      extFailed ext = true →
      (get_movie_poster imdb_id cache ext).url = none ∧
      (get_movie_poster imdb_id cache ext).cache = cache) ∧
    (∀ url c2, get_movie_poster imdb_id cache ext = ⟨some url, c2, true⟩ →
      get_movie_poster imdb_id c2 e2 = ⟨some url, c2, false⟩) := by
  unfold get_movie_poster
  by_cases hid : (decide (imdb_id = "") || decide (imdb_id = "None")) = true
  · rw [if_pos hid]
    constructor
    · intro hcall
      exact absurd hcall (by simp)
    · intro url c2 heq
      exact absurd (congrArg PosterOutcome.calledExternal heq) (by simp)
  · rw [if_neg hid]
    cases hc : cache.lookup imdb_id with
    | some u =>
      constructor
      · intro hcall
        exact absurd hcall (by simp)
      · intro url c2 heq
        exact absurd (congrArg PosterOutcome.calledExternal heq) (by simp)
    | none =>
      cases ext with
      | ok u =>
        constructor
        · intro _ hfail
          exact absurd hfail (by simp [extFailed])
        · intro url c2 heq
          have hu : u = url := by
            simpa using congrArg PosterOutcome.url heq
          have hcc : ((imdb_id, u) :: cache) = c2 := by
            simpa using congrArg PosterOutcome.cache heq
          subst hu
          subst hcc
          rw [if_neg hid]
          have hl : ((imdb_id, u) :: cache).lookup imdb_id = some u := by
            simp [List.lookup]
          rw [hl]
      | exc =>
        refine ⟨fun _ _ => ⟨rfl, rfl⟩, ?_⟩
        intro url c2 heq
        exact absurd (congrArg PosterOutcome.url heq) (by simp)
      | non200 =>
        refine ⟨fun _ _ => ⟨rfl, rfl⟩, ?_⟩
        intro url c2 heq
        exact absurd (congrArg PosterOutcome.url heq) (by simp)
      | noMeta =>
        refine ⟨fun _ _ => ⟨rfl, rfl⟩, ?_⟩
        intro url c2 heq
        exact absurd (congrArg PosterOutcome.url heq) (by simp)
